import Mathlib

/-!
Verification of the SPA static-file handler (package `spa`, file `static.go`).

The handler is embedded shallowly:

* the abstract filesystem (`http.FileSystem`) is a function from path strings
  to either an error or an open file; an open file carries the result of its
  `Stat` call and its byte content (modelled as a `String`);
* errors are abstracted by how `errors.Is` classifies them against the two
  sentinels `fs.ErrNotExist` and `fs.ErrPermission`, since that is the only
  way the handler ever inspects an error;
* the handler body (`ServeHTTP`, `handleError`, `redirect`) is translated
  statement by statement; besides the `Response` it also produces the ordered
  trace of filesystem open/close events, so that resource-handling properties
  (which opens happen, with which argument, and when handles are closed,
  including Go `defer` ordering) are visible in the model;
* `path.Clean` of the Go standard library is translated at the character
  level (`cleanList`), and the Go `strings.HasPrefix`/`strings.HasSuffix`
  byte tests become prefix/suffix tests on the character list of the string.
-/

namespace Spa

/-- Result of `Stat` on an open file: name, modification time and whether the
entry is a regular file (`fi.Mode().IsRegular()`). -/
structure FileInfo where
  name : String
  modTime : Int
  isRegular : Bool
deriving Repr, DecidableEq

/-- An abstract Go error, recorded by how `errors.Is` classifies it against
the sentinels `fs.ErrNotExist` and `fs.ErrPermission` (the only queries the
handler ever makes of an error). -/
structure FSError where
  isNotExist : Bool
  isPermission : Bool
deriving Repr, DecidableEq

/-- The sentinel `fs.ErrNotExist` itself. -/
def fsErrNotExist : FSError := { isNotExist := true, isPermission := false }

/-- The sentinel `fs.ErrPermission` itself. -/
def fsErrPermission : FSError := { isNotExist := false, isPermission := true }

deriving instance DecidableEq for Except

/-- An open file: the outcome of `Stat` and the byte content served by the
content responder (`http.ServeContent`). -/
structure File where
  statResult : Except FSError FileInfo
  content : String
deriving Repr, DecidableEq

/-- The abstract filesystem collaborator: `Open(path)` returns an open file
or an error. -/
structure FileSystem where
  Open : String → Except FSError File

/-- Handler configuration (`type handler struct`): filesystem, fallback path
and the index-redirect switch. -/
structure Handler where
  fs : FileSystem
  fallback : String
  indexRedirect : Bool

/-- A functional option, `type Option func(*handler)`. -/
def HandlerOption := Handler → Handler

/-- Constructor `StaticHandler(fs, opts...)`: defaults `fallback = "/index.html"`,
`indexRedirect = true`, then applies the options in order. -/
def StaticHandler (fs : FileSystem) (opts : List HandlerOption) : Handler :=
  opts.foldl (fun h opt => opt h)
    { fs := fs, fallback := "/index.html", indexRedirect := true }

/-- Option `Fallback(f)`, replacing the fallback path. -/
def Fallback (f : String) : HandlerOption :=
  fun h => { h with fallback := f }

/-- Option `NoIndexRedirect()`, disabling the index redirect. -/
def NoIndexRedirect : HandlerOption :=
  fun h => { h with indexRedirect := false }

/-- The per-request data the handler reads: `r.URL.Path`, `r.URL.RawQuery`,
`r.URL.EscapedFragment()` and `r.Method`. -/
structure Request where
  path : String
  rawQuery : String
  escapedFragment : String
  method : String

/-- The handler outcome visible to the client:
`movedPermanently loc` is `WriteHeader(301)` with a `Location` header and an
empty body; `serveContent` hands the open file (name, modification time,
content) to `http.ServeContent`; `internalServerError` is
`http.Error(w, StatusText(500), 500)`, a generic plain-text body. -/
inductive Response where
  | movedPermanently (location : String)
  | serveContent (name : String) (modTime : Int) (content : String)
  | internalServerError
deriving Repr, DecidableEq

/-- A filesystem event: a successful `Open`, a failed `Open`, or a `Close`,
each with the path string the handle was opened with. -/
inductive Event where
  | openOk (p : String)
  | openFail (p : String)
  | close (p : String)
deriving Repr, DecidableEq

/-- The path string of an event. -/
def eventPath : Event → String
  | .openOk p => p
  | .openFail p => p
  | .close p => p

/-- Whether the event is an `Open` call (successful or not). -/
def isOpenAttempt : Event → Bool
  | .openOk _ => true
  | .openFail _ => true
  | .close _ => false

/-- Go `strings.HasPrefix s pre` (byte-level prefix test). -/
def goHasPre (s pre : String) : Bool :=
  pre.data.isPrefixOf s.data

/-- Go `strings.HasSuffix s suf` (byte-level suffix test). -/
def goHasSuf (s suf : String) : Bool :=
  suf.data.isSuffixOf s.data

/-- Split a character list on `'/'`; segments may be empty (as when the Go
`path.Clean` scanner crosses consecutive slashes). `acc` holds the current
segment, reversed. -/
def splitSegsAux : List Char → List Char → List (List Char)
  | acc, [] => [acc.reverse]
  | acc, c :: cs =>
    if c = '/' then acc.reverse :: splitSegsAux [] cs
    else splitSegsAux (c :: acc) cs

/-- Split a character list on `'/'`. -/
def splitSegs (l : List Char) : List (List Char) :=
  splitSegsAux [] l

/-- One step of Go `path.Clean`'s element processing, on a stack of output
segments (most recent first): empty and `.` segments are dropped; `..` pops
the last output segment, except that in a rooted path `..` at the root is
dropped and in an unrooted path leading `..`s are kept; any other segment is
appended. -/
def cleanStepper (rooted : Bool) (stack : List (List Char)) (seg : List Char) :
    List (List Char) :=
  if seg = [] ∨ seg = ['.'] then stack
  else if seg = ['.', '.'] then
    match stack with
    | [] => if rooted then [] else [['.', '.']]
    | top :: rest => if top = ['.', '.'] then ['.', '.'] :: top :: rest else rest
  else seg :: stack

/-- Interleave `'/'` between segments (the output buffer of `path.Clean`). -/
def joinSegs : List (List Char) → List Char
  | [] => []
  | [s] => s
  | s :: rest => s ++ '/' :: joinSegs rest

/-- Whether the path starts with `'/'` (`path[0] == '/'` in `path.Clean`). -/
def isRooted : List Char → Bool
  | '/' :: _ => true
  | _ => false

/-- Go `path.Clean` on the character list of the path: empty path cleans to
`"."`; otherwise process the slash-separated segments left to right with
`cleanStepper` and rebuild, restoring the leading slash of a rooted path and
returning `"."` for an unrooted path whose segments all cancel. -/
def cleanList (l : List Char) : List Char :=
  if l = [] then ['.']
  else if isRooted l then
    '/' :: joinSegs (((splitSegs l).foldl (cleanStepper (isRooted l)) []).reverse)
  else if ((splitSegs l).foldl (cleanStepper (isRooted l)) []).reverse = [] then ['.']
  else joinSegs (((splitSegs l).foldl (cleanStepper (isRooted l)) []).reverse)

/-- Go `path.Clean`. -/
def pathClean (p : String) : String :=
  String.mk (cleanList p.data)

/-- Lines 66–69 of `ServeHTTP`: prepend `"/"` when the raw request path does
not already start with it; nothing else. -/
def normPath (p : String) : String :=
  if goHasPre p "/" then p else "/" ++ p

/-- The `redirect` helper (lines 129–140): destination `dst`, then `"?" +
RawQuery` when the query is non-empty, then `"#" + EscapedFragment()` when
the fragment is non-empty; `Location` header set to the result, status 301,
no body. -/
def redirectResponse (r : Request) (dst : String) : Response :=
  let dst1 := if r.rawQuery != "" then dst ++ "?" ++ r.rawQuery else dst
  let dst2 := if r.escapedFragment != "" then dst1 ++ "#" ++ r.escapedFragment else dst1
  .movedPermanently dst2

/-- Function `handleError` (lines 102–127): when the fallback path is empty, or the
error is neither `fs.ErrNotExist` nor `fs.ErrPermission` under `errors.Is`,
answer 500 at once; otherwise open the fallback path, and on open error,
stat error or a non-regular entry answer 500, else hand the fallback file to
the content responder. The deferred `f.Close()` shows up as the final
`close` event of the branches that opened the fallback. -/
def handleError (h : Handler) (err : FSError) : Response × List Event :=
  if h.fallback == "" || (!err.isNotExist && !err.isPermission) then
    (.internalServerError, [])
  else
    match h.fs.Open h.fallback with
    | .error _ => (.internalServerError, [.openFail h.fallback])
    | .ok f =>
      match f.statResult with
      | .error _ => (.internalServerError, [.openOk h.fallback, .close h.fallback])
      | .ok fi =>
        if !fi.isRegular then
          (.internalServerError, [.openOk h.fallback, .close h.fallback])
        else
          (.serveContent fi.name fi.modTime f.content,
            [.openOk h.fallback, .close h.fallback])

/-- Function `ServeHTTP` (lines 65–100): normalize the path; redirect `/index.html`
requests when enabled; reject non-root trailing-slash paths as not-found;
otherwise open `path.Clean` of the normalized path and serve regular files,
routing every failure (open error, stat error, non-regular entry) through
`handleError`. The handle opened at line 81 is closed by `defer` when
`ServeHTTP` returns, hence only after `handleError` has finished — its
`close` event comes after the events of `handleError`. -/
def serveHTTP (h : Handler) (r : Request) : Response × List Event :=
  if h.indexRedirect && goHasSuf (normPath r.path) "/index.html" then
    (redirectResponse r "./", [])
  else if (normPath r.path != "/") && goHasSuf (normPath r.path) "/" then
    handleError h fsErrNotExist
  else
    match h.fs.Open (pathClean (normPath r.path)) with
    | .error err =>
      ((handleError h err).1,
        .openFail (pathClean (normPath r.path)) :: (handleError h err).2)
    | .ok f =>
      match f.statResult with
      | .error err =>
        ((handleError h err).1,
          .openOk (pathClean (normPath r.path)) :: (handleError h err).2
            ++ [.close (pathClean (normPath r.path))])
      | .ok fi =>
        if !fi.isRegular then
          ((handleError h fsErrNotExist).1,
            .openOk (pathClean (normPath r.path)) :: (handleError h fsErrNotExist).2
              ++ [.close (pathClean (normPath r.path))])
        else
          (.serveContent fi.name fi.modTime f.content,
            [.openOk (pathClean (normPath r.path)), .close (pathClean (normPath r.path))])

/-! ### A concrete filesystem mirroring `testdata/` of the test suite -/

/-- File `/index.html` of the test tree. -/
def fileIndexHtml : File :=
  { statResult := .ok { name := "index.html", modTime := 100, isRegular := true },
    content := "<html>index</html>" }

/-- File `/test.css` of the test tree. -/
def fileTestCss : File :=
  { statResult := .ok { name := "test.css", modTime := 200, isRegular := true },
    content := "body color red" }

/-- File `/dir/test.js` of the test tree. -/
def fileTestJs : File :=
  { statResult := .ok { name := "test.js", modTime := 300, isRegular := true },
    content := "console.log(1);" }

/-- The root directory `/` of the test tree: opens fine, stats as a
non-regular entry. -/
def dirRoot : File :=
  { statResult := .ok { name := ".", modTime := 0, isRegular := false },
    content := "" }

/-- The directory `/dir` of the test tree. -/
def dirDir : File :=
  { statResult := .ok { name := "dir", modTime := 0, isRegular := false },
    content := "" }

/-- The test filesystem: three regular files, two directories, everything
else missing. -/
def testFS : FileSystem :=
  ⟨fun p =>
    if p = "/" then .ok dirRoot
    else if p = "/index.html" then .ok fileIndexHtml
    else if p = "/test.css" then .ok fileTestCss
    else if p = "/dir" then .ok dirDir
    else if p = "/dir/test.js" then .ok fileTestJs
    else .error fsErrNotExist⟩

/-! ### Trace analysis -/

/-- Paths of the successful opens of a trace, in order. -/
def openedPaths (t : List Event) : List String :=
  t.filterMap fun e => match e with | .openOk p => some p | _ => none

/-- Paths of the closes of a trace, in order. -/
def closedPaths (t : List Event) : List String :=
  t.filterMap fun e => match e with | .close p => some p | _ => none

/-- Auxiliary scan: `cur` handles currently open, `best` the maximum so far. -/
def maxOpenAux : Nat → Nat → List Event → Nat
  | _, best, [] => best
  | cur, best, .openOk _ :: t => maxOpenAux (cur + 1) (Nat.max best (cur + 1)) t
  | cur, best, .openFail _ :: t => maxOpenAux cur best t
  | cur, best, .close _ :: t => maxOpenAux (cur - 1) best t

/-- Maximum number of simultaneously open handles over a trace. -/
def maxOpen (t : List Event) : Nat := maxOpenAux 0 0 t

/-- A path segment that cannot move the resolution above the root: it is
non-empty, it is not `..`, and it contains no slash (so it really is a
single segment). -/
def goodSeg (s : List Char) : Bool :=
  decide (s ≠ [] ∧ s ≠ ['.', '.'] ∧ '/' ∉ s)

end Spa

namespace Spa

/-! ### Helper lemmas -/

/-- The two sides of the eligibility test of `handleError`: the Go guard
`fallback == "" || (!Is(err,NotExist) && !Is(err,Permission))` is the
negation of `fallback != "" && (Is(err,NotExist) || Is(err,Permission))`. -/
theorem handleError_guard (h : Handler) (err : FSError) :
    (h.fallback == "" || (!err.isNotExist && !err.isPermission))
      = !((h.fallback != "") && (err.isNotExist || err.isPermission)) := by
  have hbne : (h.fallback != "") = !(h.fallback == "") := rfl
  rw [hbne]
  cases h.fallback == "" <;> cases err.isNotExist <;> cases err.isPermission <;> rfl

/-- When ineligible (empty fallback or unclassified error), `handleError`
answers 500 at once with no filesystem activity. -/
theorem handleError_ineligible (h : Handler) (err : FSError)
    (hc : ((h.fallback != "") && (err.isNotExist || err.isPermission)) = false) :
    handleError h err = (.internalServerError, []) := by
  unfold handleError
  rw [handleError_guard, hc]
  simp

/-- The trace of `handleError` mentions no path other than the configured
fallback string, passed to `Open` verbatim. -/
theorem handleError_trace_fallback (h : Handler) (err : FSError) :
    ((handleError h err).2.map eventPath).all (fun q => q == h.fallback) = true := by
  unfold handleError
  cases hg : (h.fallback == "" || (!err.isNotExist && !err.isPermission))
  · cases ho : h.fs.Open h.fallback with
    | error e => simp [hg, ho, eventPath]
    | ok f =>
      cases hs : f.statResult with
      | error e => simp [hg, ho, hs, eventPath]
      | ok fi => cases hr : fi.isRegular <;> simp [hg, ho, hs, hr, eventPath]
  · simp [hg]

/-- The possible traces of `handleError`: nothing, a failed open of the
fallback, or a successful open of the fallback followed by its close. -/
theorem handleError_trace_shape (h : Handler) (err : FSError) :
    (handleError h err).2 = [] ∨
    (handleError h err).2 = [.openFail h.fallback] ∨
    (handleError h err).2 = [.openOk h.fallback, .close h.fallback] := by
  unfold handleError
  cases hg : (h.fallback == "" || (!err.isNotExist && !err.isPermission))
  · cases ho : h.fs.Open h.fallback with
    | error e => simp [hg, ho]
    | ok f =>
      cases hs : f.statResult with
      | error e => simp [hg, ho, hs]
      | ok fi => cases hr : fi.isRegular <;> simp [hg, ho, hs, hr]
  · simp [hg]

/-- Function `handleError` never issues a redirect. -/
theorem handleError_ne_moved (h : Handler) (err : FSError) (loc : String) :
    (handleError h err).1 ≠ .movedPermanently loc := by
  unfold handleError
  cases hg : (h.fallback == "" || (!err.isNotExist && !err.isPermission))
  · cases ho : h.fs.Open h.fallback with
    | error e => simp [hg, ho]
    | ok f =>
      cases hs : f.statResult with
      | error e => simp [hg, ho, hs]
      | ok fi => cases hr : fi.isRegular <;> simp [hg, ho, hs, hr]
  · simp [hg]

/-- The `redirect` helper called with destination `"./"` produces exactly
`"./"`, then the original query behind `"?"` when non-empty, then the
escaped fragment behind `"#"` when non-empty. -/
theorem redirectResponse_location (r : Request) :
    redirectResponse r "./" = .movedPermanently
      ("./" ++ (if r.rawQuery != "" then "?" ++ r.rawQuery else "")
        ++ (if r.escapedFragment != "" then "#" ++ r.escapedFragment else "")) := by
  unfold redirectResponse
  cases hq : r.rawQuery != "" <;> cases hf : r.escapedFragment != "" <;>
    simp [hq, hf, String.append_assoc] <;> rfl

/-- When the redirect guard is false, the answer is never a 301. -/
theorem serveHTTP_no_redirect (h : Handler) (r : Request)
    (hc : (h.indexRedirect && goHasSuf (normPath r.path) "/index.html") = false)
    (loc : String) : (serveHTTP h r).1 ≠ .movedPermanently loc := by
  unfold serveHTTP
  rw [hc]
  simp only [Bool.false_eq_true, if_false]
  by_cases hsl : ((normPath r.path != "/") && goHasSuf (normPath r.path) "/") = true
  · rw [if_pos hsl]
    exact handleError_ne_moved h fsErrNotExist loc
  · rw [if_neg hsl]
    split
    · exact handleError_ne_moved h _ loc
    · split
      · exact handleError_ne_moved h _ loc
      · split
        · exact handleError_ne_moved h fsErrNotExist loc
        · exact fun hh => Response.noConfusion hh

/-- Function `handleError` looks at the error only through the eligibility test, so
any eligible error behaves exactly like the sentinel `fs.ErrNotExist`. -/
theorem handleError_eligible_eq_notExist (h : Handler) (err : FSError)
    (he : (err.isNotExist || err.isPermission) = true) :
    handleError h err = handleError h fsErrNotExist := by
  unfold handleError
  cases hn : err.isNotExist <;> cases hp : err.isPermission <;>
    simp_all [fsErrNotExist]

end Spa

namespace Spa

/-! ### Claim theorems -/

/-- C1: for a failed lookup, the fallback is attempted (an `Open` of the
fallback path occurs) if and only if the configured fallback path is
non-empty and the error is classified not-found or permission-denied; in
every other case `handleError` responds at once with the generic 500 reply
and performs no filesystem access. -/
theorem C1_fallback_eligibility (h : Handler) (err : FSError) :
    ((handleError h err).2.any isOpenAttempt = true ↔
      ((h.fallback != "") && (err.isNotExist || err.isPermission)) = true) ∧
    (handleError h err = (.internalServerError, []) ↔
      ((h.fallback != "") && (err.isNotExist || err.isPermission)) = false) := by
  cases hc : ((h.fallback != "") && (err.isNotExist || err.isPermission)) with
  | false =>
    rw [handleError_ineligible h err hc]
    simp
  | true =>
    unfold handleError
    rw [handleError_guard, hc]
    cases ho : h.fs.Open h.fallback with
    | error e => simp [ho, isOpenAttempt]
    | ok f =>
      cases hs : f.statResult with
      | error e => simp [ho, hs, isOpenAttempt]
      | ok fi => cases hr : fi.isRegular <;> simp [ho, hs, hr, isOpenAttempt]

/-- C2: a permanent redirect is issued if and only if the index redirect is
enabled and the normalized path ends in `/index.html`; when it fires the
whole answer is status 301 with `Location` built from `"./"`, the original
query and the escaped fragment, and the filesystem is never touched; when
the condition fails no redirect is ever produced, so such paths go through
the normal lookup. -/
theorem C2_index_redirect (h : Handler) (r : Request) :
    ((∃ loc, (serveHTTP h r).1 = .movedPermanently loc) ↔
      (h.indexRedirect && goHasSuf (normPath r.path) "/index.html") = true) ∧
    ((h.indexRedirect && goHasSuf (normPath r.path) "/index.html") = true →
      serveHTTP h r = (.movedPermanently
        ("./" ++ (if r.rawQuery != "" then "?" ++ r.rawQuery else "")
          ++ (if r.escapedFragment != "" then "#" ++ r.escapedFragment else "")), [])) := by
  have hmain : (h.indexRedirect && goHasSuf (normPath r.path) "/index.html") = true →
      serveHTTP h r = (redirectResponse r "./", []) := by
    intro hc
    unfold serveHTTP
    rw [hc]
    simp
  constructor
  · constructor
    · rintro ⟨loc, hloc⟩
      by_contra hc
      rw [Bool.not_eq_true] at hc
      exact serveHTTP_no_redirect h r hc loc hloc
    · intro hc
      rw [hmain hc, redirectResponse_location]
      exact ⟨_, rfl⟩
  · intro hc
    rw [hmain hc, redirectResponse_location]

/-- C2 witness: the redirect fires on the test handler for
`/index.html?query#fragment` with the documented `Location`. -/
theorem C2_index_redirect_witness :
    serveHTTP (StaticHandler testFS []) ⟨"/index.html", "query", "fragment", "GET"⟩
      = (.movedPermanently "./?query#fragment", []) := by
  have := (C2_index_redirect (StaticHandler testFS [])
    ⟨"/index.html", "query", "fragment", "GET"⟩).2 (by decide)
  rw [this]
  decide

end Spa

namespace Spa

/-- C3: a normalized path that is not `/` but ends in `/` is rejected before
any filesystem access for it: the whole outcome is exactly
`handleError h fsErrNotExist`, the trace touches no path except the
configured fallback, and when the fallback is configured and resolves to a
regular file the response serves that file (status 200 via the content
responder). -/
theorem C3_trailing_slash_fallback (h : Handler) (r : Request)
    (hred : (h.indexRedirect && goHasSuf (normPath r.path) "/index.html") = false)
    (hsl : ((normPath r.path != "/") && goHasSuf (normPath r.path) "/") = true) :
    serveHTTP h r = handleError h fsErrNotExist ∧
    ((serveHTTP h r).2.map eventPath).all (fun q => q == h.fallback) = true ∧
    (∀ f fi, h.fallback ≠ "" → h.fs.Open h.fallback = .ok f →
      f.statResult = .ok fi → fi.isRegular = true →
      (serveHTTP h r).1 = .serveContent fi.name fi.modTime f.content) := by
  have heq : serveHTTP h r = handleError h fsErrNotExist := by
    unfold serveHTTP
    rw [hred]
    simp only [Bool.false_eq_true, if_false]
    rw [if_pos hsl]
  refine ⟨heq, ?_, ?_⟩
  · rw [heq]
    exact handleError_trace_fallback h fsErrNotExist
  · intro f fi hne ho hs hr
    rw [heq]
    unfold handleError
    have hg : (h.fallback == ""
        || (!fsErrNotExist.isNotExist && !fsErrNotExist.isPermission)) = false := by
      simp [fsErrNotExist, beq_eq_false_iff_ne, hne]
    rw [hg]
    simp [ho, hs, hr]

/-- C3 witness: `/dir/` on the default test handler is answered by the
fallback logic and serves `/index.html`. -/
theorem C3_trailing_slash_fallback_witness :
    serveHTTP (StaticHandler testFS []) ⟨"/dir/", "", "", "GET"⟩
      = handleError (StaticHandler testFS []) fsErrNotExist ∧
    (serveHTTP (StaticHandler testFS []) ⟨"/dir/", "", "", "GET"⟩).1
      = .serveContent "index.html" 100 "<html>index</html>" := by
  have hthm := C3_trailing_slash_fallback (StaticHandler testFS [])
    ⟨"/dir/", "", "", "GET"⟩ (by decide) (by decide)
  exact ⟨hthm.1, hthm.2.2 fileIndexHtml
    { name := "index.html", modTime := 100, isRegular := true }
    (by decide) (by decide) (by decide) (by decide)⟩

/-- C4: past the redirect and trailing-slash gates, a successful open whose
entry is not a regular file is handed to the error path with the very
sentinel `fs.ErrNotExist` used by the trailing-slash rejection (so it is
never listed); and an open or stat failure whose error is in the
not-found/permission class produces the same response as that sentinel. -/
theorem C4_failure_classes (h : Handler) (r : Request)
    (hred : (h.indexRedirect && goHasSuf (normPath r.path) "/index.html") = false)
    (hsl : ((normPath r.path != "/") && goHasSuf (normPath r.path) "/") = false) :
    (∀ f fi, h.fs.Open (pathClean (normPath r.path)) = .ok f →
      f.statResult = .ok fi → fi.isRegular = false →
      serveHTTP h r = ((handleError h fsErrNotExist).1,
        .openOk (pathClean (normPath r.path)) :: (handleError h fsErrNotExist).2
          ++ [.close (pathClean (normPath r.path))])) ∧
    (∀ err, h.fs.Open (pathClean (normPath r.path)) = .error err →
      (err.isNotExist || err.isPermission) = true →
      (serveHTTP h r).1 = (handleError h fsErrNotExist).1) ∧
    (∀ f err, h.fs.Open (pathClean (normPath r.path)) = .ok f →
      f.statResult = .error err →
      (err.isNotExist || err.isPermission) = true →
      (serveHTTP h r).1 = (handleError h fsErrNotExist).1) := by
  refine ⟨?_, ?_, ?_⟩
  · intro f fi ho hs hr
    unfold serveHTTP
    rw [hred]
    simp only [Bool.false_eq_true, if_false]
    rw [hsl]
    simp only [Bool.false_eq_true, if_false]
    simp [ho, hs, hr]
  · intro err ho he
    unfold serveHTTP
    rw [hred]
    simp only [Bool.false_eq_true, if_false]
    rw [hsl]
    simp only [Bool.false_eq_true, if_false]
    simp only [ho]
    rw [handleError_eligible_eq_notExist h err he]
  · intro f err ho hs he
    unfold serveHTTP
    rw [hred]
    simp only [Bool.false_eq_true, if_false]
    rw [hsl]
    simp only [Bool.false_eq_true, if_false]
    simp only [ho, hs]
    rw [handleError_eligible_eq_notExist h err he]

/-- C4 witness: `/dir` opens as a directory on the test handler and is
answered exactly like a missing file, through `fs.ErrNotExist`. -/
theorem C4_failure_classes_witness :
    serveHTTP (StaticHandler testFS []) ⟨"/dir", "", "", "GET"⟩
      = ((handleError (StaticHandler testFS []) fsErrNotExist).1,
         .openOk "/dir" :: (handleError (StaticHandler testFS []) fsErrNotExist).2
           ++ [.close "/dir"]) :=
  (C4_failure_classes (StaticHandler testFS []) ⟨"/dir", "", "", "GET"⟩
      (by decide) (by decide)).1
    dirDir { name := "dir", modTime := 0, isRegular := false }
    (by decide) (by decide) (by decide)

/-- C5: on an eligible failure with a configured fallback, the fallback is
opened verbatim; any failure there (open error, stat error, non-regular
entry) yields the generic 500 with no further open (the trace holds at most
one open attempt, so there is no second-level fallback), and success hands
the fallback file to the content responder exactly like a normal hit, with
its own name, modification time and content and no special status. -/
theorem C5_fallback_resolution (h : Handler) (err : FSError)
    (he : ((h.fallback != "") && (err.isNotExist || err.isPermission)) = true) :
    (∀ e, h.fs.Open h.fallback = .error e →
      handleError h err = (.internalServerError, [.openFail h.fallback])) ∧
    (∀ f e, h.fs.Open h.fallback = .ok f → f.statResult = .error e →
      handleError h err = (.internalServerError, [.openOk h.fallback, .close h.fallback])) ∧
    (∀ f fi, h.fs.Open h.fallback = .ok f → f.statResult = .ok fi → fi.isRegular = false →
      handleError h err = (.internalServerError, [.openOk h.fallback, .close h.fallback])) ∧
    (∀ f fi, h.fs.Open h.fallback = .ok f → f.statResult = .ok fi → fi.isRegular = true →
      handleError h err = (.serveContent fi.name fi.modTime f.content,
        [.openOk h.fallback, .close h.fallback])) ∧
    (handleError h err).2.countP isOpenAttempt ≤ 1 := by
  have hg : (h.fallback == "" || (!err.isNotExist && !err.isPermission)) = false := by
    rw [handleError_guard, he]
    rfl
  refine ⟨?_, ?_, ?_, ?_, ?_⟩
  · intro e ho
    unfold handleError
    rw [hg]
    simp [ho]
  · intro f e ho hs
    unfold handleError
    rw [hg]
    simp [ho, hs]
  · intro f fi ho hs hr
    unfold handleError
    rw [hg]
    simp [ho, hs, hr]
  · intro f fi ho hs hr
    unfold handleError
    rw [hg]
    simp [ho, hs, hr]
  · rcases handleError_trace_shape h err with h1 | h1 | h1 <;>
      simp [h1, isOpenAttempt]

/-- C5 witness: a permission-denied lookup on the default test handler
serves the fallback `/index.html` like a normal hit. -/
theorem C5_fallback_resolution_witness :
    handleError (StaticHandler testFS []) fsErrPermission
      = (.serveContent "index.html" 100 "<html>index</html>",
         [.openOk "/index.html", .close "/index.html"]) :=
  (C5_fallback_resolution (StaticHandler testFS []) fsErrPermission
      (by decide)).2.2.2.1
    fileIndexHtml { name := "index.html", modTime := 100, isRegular := true }
    (by decide) (by decide) (by decide)

/-- C7: with the fallback configured to `/dir/test.js`, the root request
`/` passes the trailing-slash gate, its lookup proceeds (the root opens as
a directory), and the configured fallback file — not the default
`/index.html` — is served, with body equal to `/dir/test.js`'s contents. -/
theorem C7_custom_fallback :
    serveHTTP (StaticHandler testFS [Fallback "/dir/test.js"]) ⟨"/", "", "", "GET"⟩
      = (.serveContent "test.js" 300 fileTestJs.content,
         [.openOk "/", .openOk "/dir/test.js", .close "/dir/test.js", .close "/"]) ∧
    testFS.Open "/dir/test.js" = .ok fileTestJs := by
  exact ⟨by decide, by decide⟩

/-- C8: the outcome (response and trace) is a function of the request's
path, query and fragment, the configuration and the filesystem alone; two
requests equal on those but with different HTTP methods get the identical
result, so there is no method-based branching, and identical inputs always
give identical responses. -/
theorem C8_method_independence (h : Handler) (r1 r2 : Request)
    (hp : r1.path = r2.path) (hq : r1.rawQuery = r2.rawQuery)
    (hf : r1.escapedFragment = r2.escapedFragment) :
    serveHTTP h r1 = serveHTTP h r2 := by
  cases r1
  cases r2
  dsimp only at hp hq hf
  subst hp
  subst hq
  subst hf
  rfl

/-- C8 witness: a GET and a POST for `/test.css` get the identical outcome
on the test handler. -/
theorem C8_method_independence_witness :
    serveHTTP (StaticHandler testFS []) ⟨"/test.css", "", "", "GET"⟩
      = serveHTTP (StaticHandler testFS []) ⟨"/test.css", "", "", "POST"⟩ :=
  C8_method_independence (StaticHandler testFS []) _ _ rfl rfl rfl

/-- C10: during fallback resolution the string handed to `Open` is the
configured fallback verbatim — every event of `handleError`'s trace carries
exactly `h.fallback` — and concretely a relative, uncleaned fallback such
as `dir/../x` reaches the filesystem unchanged, with no leading-slash
normalization and no lexical cleaning. -/
theorem C10_fallback_verbatim (h : Handler) (err : FSError) :
    ((handleError h err).2.map eventPath).all (fun q => q == h.fallback) = true ∧
    (handleError (StaticHandler testFS [Fallback "dir/../x"]) fsErrNotExist).2
      = [.openFail "dir/../x"] :=
  ⟨handleError_trace_fallback h err, by decide⟩

end Spa

namespace Spa

/-- A pair in either order is a permutation of the pair reversed. -/
theorem perm_pair {α : Type} (a b : α) : ([a, b] : List α).Perm [b, a] :=
  List.Perm.swap b a []

/-- Every event of `handleError`'s trace carries the fallback path. -/
theorem handleError_trace_paths (h : Handler) (err : FSError) :
    ∀ e ∈ (handleError h err).2, eventPath e = h.fallback := by
  intro e he
  rcases handleError_trace_shape h err with h1 | h1 | h1 <;> rw [h1] at he
  · simp at he
  · rw [List.mem_singleton] at he
    rw [he]
    rfl
  · rcases List.mem_cons.mp he with h2 | h2
    · rw [h2]
      rfl
    · rw [List.mem_singleton] at h2
      rw [h2]
      rfl

/-- Every event of a full `serveHTTP` trace carries either the cleaned
normalized request path or the fallback path. -/
theorem serveHTTP_trace_paths (h : Handler) (r : Request) :
    ∀ e ∈ (serveHTTP h r).2,
      eventPath e = pathClean (normPath r.path) ∨ eventPath e = h.fallback := by
  intro e he
  unfold serveHTTP at he
  by_cases hred : (h.indexRedirect && goHasSuf (normPath r.path) "/index.html") = true
  · rw [if_pos hred] at he
    simp at he
  · rw [if_neg hred] at he
    by_cases hsl : ((normPath r.path != "/") && goHasSuf (normPath r.path) "/") = true
    · rw [if_pos hsl] at he
      exact Or.inr (handleError_trace_paths h fsErrNotExist e he)
    · rw [if_neg hsl] at he
      revert he
      split
      · intro he
        rcases List.mem_cons.mp he with h2 | h2
        · rw [h2]
          exact Or.inl rfl
        · exact Or.inr (handleError_trace_paths h _ e h2)
      · split
        · intro he
          rcases List.mem_cons.mp he with h2 | h2
          · rw [h2]
            exact Or.inl rfl
          · rcases List.mem_append.mp h2 with h3 | h3
            · exact Or.inr (handleError_trace_paths h _ e h3)
            · rw [List.mem_singleton] at h3
              rw [h3]
              exact Or.inl rfl
        · split
          · intro he
            rcases List.mem_cons.mp he with h2 | h2
            · rw [h2]
              exact Or.inl rfl
            · rcases List.mem_append.mp h2 with h3 | h3
              · exact Or.inr (handleError_trace_paths h _ e h3)
              · rw [List.mem_singleton] at h3
                rw [h3]
                exact Or.inl rfl
          · intro he
            rcases List.mem_cons.mp he with h2 | h2
            · rw [h2]
              exact Or.inl rfl
            · rw [List.mem_singleton] at h2
              rw [h2]
              exact Or.inl rfl

/-- No element of any segment produced by the splitter contains a slash. -/
theorem splitSegsAux_no_slash (l : List Char) : ∀ acc : List Char, '/' ∉ acc →
    ∀ s ∈ splitSegsAux acc l, '/' ∉ s := by
  induction l with
  | nil =>
    intro acc hacc s hs
    rw [splitSegsAux, List.mem_singleton] at hs
    rw [hs, List.mem_reverse]
    exact hacc
  | cons c cs ih =>
    intro acc hacc s hs
    by_cases hc : c = '/'
    · subst hc
      rw [splitSegsAux, if_pos rfl] at hs
      rcases List.mem_cons.mp hs with h2 | h2
      · rw [h2, List.mem_reverse]
        exact hacc
      · exact ih [] (by simp) s h2
    · rw [splitSegsAux, if_neg hc] at hs
      refine ih (c :: acc) ?_ s hs
      rw [List.mem_cons]
      rintro (h2 | h2)
      · exact hc h2.symm
      · exact hacc h2

/-- Invariant of the rooted cleaning fold: starting from a stack of good
segments and feeding slash-free segments, every segment of the resulting
stack is non-empty, is not `..`, and contains no slash. -/
theorem foldl_cleanStepper_good (segs : List (List Char)) :
    ∀ stack : List (List Char), (∀ s ∈ segs, '/' ∉ s) →
    (∀ s ∈ stack, s ≠ [] ∧ s ≠ ['.', '.'] ∧ '/' ∉ s) →
    ∀ s ∈ segs.foldl (cleanStepper true) stack,
      s ≠ [] ∧ s ≠ ['.', '.'] ∧ '/' ∉ s := by
  induction segs with
  | nil =>
    intro stack _ hstack s hs
    exact hstack s hs
  | cons seg rest ih =>
    intro stack hsegs hstack s hs
    rw [List.foldl_cons] at hs
    refine ih (cleanStepper true stack seg)
      (fun t ht => hsegs t (List.mem_cons_of_mem _ ht)) ?_ s hs
    intro t ht
    unfold cleanStepper at ht
    by_cases h1 : seg = [] ∨ seg = ['.']
    · rw [if_pos h1] at ht
      exact hstack t ht
    · rw [if_neg h1] at ht
      by_cases h2 : seg = ['.', '.']
      · rw [if_pos h2] at ht
        split at ht
        · simp at ht
        · next top rest2 =>
          have htop := hstack top (List.mem_cons_self top rest2)
          rw [if_neg htop.2.1] at ht
          exact hstack t (List.mem_cons_of_mem _ ht)
      · rw [if_neg h2] at ht
        rcases List.mem_cons.mp ht with h3 | h3
        · subst h3
          exact ⟨fun hh => h1 (Or.inl hh), h2, hsegs t (List.mem_cons_self t rest)⟩
        · exact hstack t h3

/-- Cleaning a rooted character list yields a slash followed by harmless
segments: each is non-empty, is not `..`, and holds no slash. -/
theorem cleanList_rooted (t : List Char) :
    ∃ segs : List (List Char),
      (∀ s ∈ segs, s ≠ [] ∧ s ≠ ['.', '.'] ∧ '/' ∉ s) ∧
      cleanList ('/' :: t) = '/' :: joinSegs segs := by
  unfold cleanList
  rw [if_neg (by simp), if_pos (show isRooted ('/' :: t) = true from rfl)]
  refine ⟨((splitSegs ('/' :: t)).foldl (cleanStepper (isRooted ('/' :: t))) []).reverse,
    ?_, rfl⟩
  intro s hs
  rw [List.mem_reverse] at hs
  exact foldl_cleanStepper_good (splitSegs ('/' :: t)) []
    (splitSegsAux_no_slash ('/' :: t) [] (by simp)) (by simp) s hs

/-- Test `strings.HasPrefix p "/"` holds exactly when the first character of `p`
is a slash. -/
theorem goHasPre_slash (s : String) :
    goHasPre s "/" = true ↔ ∃ t, s.data = '/' :: t := by
  unfold goHasPre
  show (['/'].isPrefixOf s.data) = true ↔ _
  cases hd : s.data with
  | nil => simp [List.isPrefixOf]
  | cons c cs =>
    simp only [List.isPrefixOf, Bool.and_eq_true, beq_iff_eq, List.cons.injEq]
    constructor
    · rintro ⟨h1, _⟩
      exact ⟨cs, h1.symm, rfl⟩
    · rintro ⟨u, h1, h2⟩
      exact ⟨h1.symm, by simp⟩

/-- The normalized request path always begins with a slash. -/
theorem normPath_head (p : String) : ∃ t, (normPath p).data = '/' :: t := by
  unfold normPath
  by_cases hp : goHasPre p "/" = true
  · rw [if_pos hp]
    exact (goHasPre_slash p).mp hp
  · rw [if_neg hp]
    refine ⟨p.data, ?_⟩
    rw [String.data_append]
    rfl

end Spa

namespace Spa

/-- C6: the raw request path gets a leading slash prepended when missing
and nothing else before the redirect check; every path handed to the
filesystem's `Open` is either `path.Clean` of that normalized path or the
configured fallback; and the cleaned normalized path always decomposes as a
leading slash followed by segments that are non-empty, slash-free and never
`..`, so it cannot lexically escape the root. -/
theorem C6_normalize_and_clean (h : Handler) (r : Request) :
    normPath r.path = (if goHasPre r.path "/" then r.path else "/" ++ r.path) ∧
    ((serveHTTP h r).2.map eventPath).all
      (fun q => q == pathClean (normPath r.path) || q == h.fallback) = true ∧
    (∃ segs : List (List Char), segs.all goodSeg = true ∧
      pathClean (normPath r.path) = String.mk ('/' :: joinSegs segs)) := by
  refine ⟨rfl, ?_, ?_⟩
  · rw [List.all_eq_true]
    intro q hq
    rw [List.mem_map] at hq
    obtain ⟨e, he, rfl⟩ := hq
    rcases serveHTTP_trace_paths h r e he with h1 | h1 <;> rw [h1] <;> simp
  · obtain ⟨t, ht⟩ := normPath_head r.path
    obtain ⟨segs, hgood, hclean⟩ := cleanList_rooted t
    refine ⟨segs, ?_, ?_⟩
    · rw [List.all_eq_true]
      intro s hs
      exact decide_eq_true (hgood s hs)
    · unfold pathClean
      rw [ht, hclean]

/-- C9 (amended): every handle the handler opens is closed before it
returns — the multiset of opened paths equals the multiset of closed paths
on every control path — but the main handle and the fallback handle can be
open simultaneously (stat failure or non-regular entry after a successful
open), so the bound on simultaneously open handles is two, not one; within
the main lookup alone and the fallback lookup alone, at most one handle is
opened. -/
theorem C9_all_opened_closed (h : Handler) (r : Request) :
    (openedPaths (serveHTTP h r).2).Perm (closedPaths (serveHTTP h r).2) ∧
    maxOpen (serveHTTP h r).2 ≤ 2 ∧
    (handleError h fsErrNotExist).2.countP isOpenAttempt ≤ 1 := by
  refine ⟨?_, ?_, ?_⟩
  · unfold serveHTTP
    by_cases hred : (h.indexRedirect && goHasSuf (normPath r.path) "/index.html") = true
    · rw [if_pos hred]
      simp [openedPaths, closedPaths]
    · rw [if_neg hred]
      by_cases hsl : ((normPath r.path != "/") && goHasSuf (normPath r.path) "/") = true
      · rw [if_pos hsl]
        rcases handleError_trace_shape h fsErrNotExist with h1 | h1 | h1 <;>
          simp [h1, openedPaths, closedPaths]
      · rw [if_neg hsl]
        split
        · rename_i err heq
          rcases handleError_trace_shape h err with h1 | h1 | h1 <;>
            simp [h1, openedPaths, closedPaths]
        · split
          · rename_i err heq
            rcases handleError_trace_shape h err with h1 | h1 | h1 <;>
              simp [h1, openedPaths, closedPaths, perm_pair]
          · split
            · rcases handleError_trace_shape h fsErrNotExist with h1 | h1 | h1 <;>
                simp [h1, openedPaths, closedPaths, perm_pair]
            · simp [openedPaths, closedPaths]
  · unfold serveHTTP
    by_cases hred : (h.indexRedirect && goHasSuf (normPath r.path) "/index.html") = true
    · rw [if_pos hred]
      simp [maxOpen, maxOpenAux]
    · rw [if_neg hred]
      by_cases hsl : ((normPath r.path != "/") && goHasSuf (normPath r.path) "/") = true
      · rw [if_pos hsl]
        rcases handleError_trace_shape h fsErrNotExist with h1 | h1 | h1 <;>
          simp [h1, maxOpen, maxOpenAux]
      · rw [if_neg hsl]
        split
        · rename_i err heq
          rcases handleError_trace_shape h err with h1 | h1 | h1 <;>
            simp [h1, maxOpen, maxOpenAux]
        · split
          · rename_i err heq
            rcases handleError_trace_shape h err with h1 | h1 | h1 <;>
              simp [h1, maxOpen, maxOpenAux]
          · split
            · rcases handleError_trace_shape h fsErrNotExist with h1 | h1 | h1 <;>
                simp [h1, maxOpen, maxOpenAux]
            · simp [maxOpen, maxOpenAux]
  · rcases handleError_trace_shape h fsErrNotExist with h1 | h1 | h1 <;>
      simp [h1, isOpenAttempt]

/-- C9 counterexample: on the default test handler, the directory request
`/dir` opens the directory, keeps it open (its deferred close runs only
when `ServeHTTP` returns) while `handleError` opens the fallback, so two
handles are open at once — refuting "at most one resolved target is open
at a time". -/
theorem C9_two_handles_open :
    ¬ (maxOpen (serveHTTP (StaticHandler testFS []) ⟨"/dir", "", "", "GET"⟩).2 ≤ 1) := by
  decide

end Spa
